import Mathlib

namespace Esql

/-!
Verification of the ESQL validator listener (`esql/esql_listener.py`,
class `ESQLValidatorListener`).

The listener is driven by an external ANTLR tree walker.  We embed the
parse tree shallowly: a tree is either a terminal token (`leaf`, carrying
its text) or a parser-rule node tagged with its context kind (the
generated-parser context class it is an instance of) and its ordered
children.  ANTLR's `getText()` is the concatenation of the texts of the
leaves below a node.  A node's `parentCtx` chain is represented as the
explicit list of its ancestors, nearest parent first; an empty list means
the node is the root (`parentCtx is None`).

Each listener handler is embedded as a pure function from the node, its
ancestor chain and the current session state to the updated state paired
with an optional raised error.  The state returned alongside an error is
the state at the moment the exception propagates (Python mutations made
before the `raise` are kept).
-/

/-- Context kinds: the generated-parser context classes the listener
inspects with `isinstance`, plus `other` for every other rule kind. -/
inductive NodeKind where
  | qualifiedName
  | sourceIdentifier
  | nullLiteral
  | integerLiteral
  | qualifiedIntegerLiteral
  | decimalLiteral
  | booleanLiteral
  | stringLiteral
  | numericArrayLiteral
  | booleanArrayLiteral
  | stringArrayLiteral
  | comparison
  | logicalIn
  | operatorExpression
  | valueExpression
  | fromCommand
  | evalCommand
  | whereCommand
  | other
  deriving Repr, DecidableEq

/-- A parse tree: terminal token or rule node with kind and children. -/
inductive Tree where
  | leaf (text : String)
  | node (kind : NodeKind) (children : List Tree)
  deriving Repr

/-- Python `isinstance(t, <kind>)`: true only for rule nodes of that kind
(terminal nodes are not parser-rule contexts). -/
def Tree.isKind : Tree → NodeKind → Bool
  | .leaf _, _ => false
  | .node k _, k2 => k == k2

mutual

/-- ANTLR `getText()`: concatenation of the texts of the leaves below. -/
def Tree.getText : Tree → String
  | .leaf t => t
  | .node _ cs => getTextList cs

/-- Concatenated text of a list of sibling subtrees. -/
def getTextList : List Tree → String
  | [] => ""
  | c :: cs => Tree.getText c ++ getTextList cs

end

/-- The direct children of a node (`getChild` ranges over these);
terminal nodes have none. -/
def childrenOf : Tree → List Tree
  | .leaf _ => []
  | .node _ cs => cs

/-- The children of `t` that are rule nodes of kind `k` (ANTLR generated
accessors such as `operatorExpression(i)` index into this list). -/
def ruleChildren (t : Tree) (k : NodeKind) : List Tree :=
  (childrenOf t).filter (fun c => c.isKind k)

/-- Accessor `ctx.operatorExpression(0)`: first `operatorExpression` child, if any. -/
def operatorExpression0 (t : Tree) : Option Tree :=
  (ruleChildren t .operatorExpression).head?

/-- Accessor `ctx.valueExpression(0)`: first `valueExpression` child, if any. -/
def valueExpression0 (t : Tree) : Option Tree :=
  (ruleChildren t .valueExpression).head?

/-- The schema: field name to declared type, as an association list with
exact string keys (Python `dict`). -/
abbrev Schema := List (String × String)

/-- Python `schema[field]` / `field in schema`: exact-match lookup. -/
def lookupField : Schema → String → Option String
  | [], _ => none
  | (k, v) :: rest, f => if k = f then some v else lookupField rest f

/-- The exceptions the listener can raise.  `esqlSyntaxInvalidField f` is
`ESQLSyntaxError(f"Invalid field: {field}")` from `enterQualifiedName`;
`valueInvalidField f` is `ValueError(f"Invalid field: {field}")` from
`enterSourceIdentifier`; `typeMismatch` carries exactly the values
interpolated into the `ValueError` message of `check_literal_type`
(field, context type, expected type, actual type, where the actual type
may be Python `None`); `attributeError` is the `AttributeError` Python
raises when an accessor returns `None` and is dereferenced. -/
inductive PyError where
  | attributeError
  | esqlSyntaxInvalidField (field : String)
  | valueInvalidField (field : String)
  | typeMismatch (field : String) (contextType : Option String)
      (expected : String) (actual : Option String)
  deriving Repr, DecidableEq

/-- The mutable listener state: `field_list`, `indices`,
`get_event_datasets` (the dataset-comparison collection). -/
structure SessionState where
  field_list : List String
  indices : List String
  get_event_datasets : List String
  deriving Repr, DecidableEq

/-- The state set up by `__init__`: three empty lists. -/
def initState : SessionState := ⟨[], [], []⟩

example : Tree.getText (Tree.node .comparison
    [Tree.node .operatorExpression [Tree.leaf "a"], Tree.leaf "==",
     Tree.leaf "b"]) = "a==b" := rfl

example : operatorExpression0 (Tree.node .comparison
    [Tree.leaf "x", Tree.node .operatorExpression [Tree.leaf "a"]])
    = some (Tree.node .operatorExpression [Tree.leaf "a"]) := rfl

/-- Handler `enterQualifiedName`: unless the immediate parent is an
`EvalCommandContext`, append the node text to `field_list`, raise
`ESQLSyntaxError` when the text is not a schema key, and when the text is
`event.dataset` append the parent's full text to `get_event_datasets`
(dereferencing a `None` parent would raise `AttributeError`). -/
def enterQualifiedName (schema : Schema) (ctx : Tree) (ancestors : List Tree)
    (s : SessionState) : SessionState × Option PyError :=
  if ancestors.head?.any (fun p => p.isKind .evalCommand) then (s, none)
  else
    let field := ctx.getText
    let s1 := { s with field_list := s.field_list ++ [field] }
    if (lookupField schema field).isNone then
      (s1, some (.esqlSyntaxInvalidField field))
    else if field = "event.dataset" then
      match ancestors.head? with
      | some p =>
          ({ s1 with get_event_datasets := s1.get_event_datasets ++ [p.getText] },
           none)
      | none => (s1, some .attributeError)
    else (s1, none)

/-- Handler `enterSourceIdentifier`: when the immediate parent is not a
`FromCommandContext`, treat the text as a field (append to `field_list`,
raise `ValueError` when it is not a schema key); otherwise append the
text to `indices`. -/
def enterSourceIdentifier (schema : Schema) (ctx : Tree) (ancestors : List Tree)
    (s : SessionState) : SessionState × Option PyError :=
  if !(ancestors.head?.any (fun p => p.isKind .fromCommand)) then
    let field := ctx.getText
    let s1 := { s with field_list := s.field_list ++ [field] }
    if (lookupField schema field).isNone then
      (s1, some (.valueInvalidField field))
    else (s1, none)
  else
    ({ s with indices := s.indices ++ [ctx.getText] }, none)

/-- Search `find_associated_field_and_context`: walk the ancestor chain from the
immediate parent; at the first `ComparisonContext` return the text of
`operatorExpression(0).getChild(0)` (Python `None` when there is no such
child) paired with `"Comparison"`; at the first `LogicalInContext` do the
same with `valueExpression(0)` and `"LogicalIn"`; past the root return
`(None, None)`.  `.error ()` models the `AttributeError` Python raises
when `operatorExpression(0)` (resp. `valueExpression(0)`) is `None` and
`.getChild(0)` is called on it. -/
def find_associated_field_and_context :
    List Tree → Except Unit (Option String × Option String)
  | [] => .ok (none, none)
  | p :: rest =>
    if p.isKind .comparison then
      match operatorExpression0 p with
      | none => .error ()
      | some oe => .ok ((childrenOf oe).head?.map Tree.getText, some "Comparison")
    else if p.isKind .logicalIn then
      match valueExpression0 p with
      | none => .error ()
      | some ve => .ok ((childrenOf ve).head?.map Tree.getText, some "LogicalIn")
    else find_associated_field_and_context rest

/-- Inference `get_literal_type`: in a `Comparison` or `LogicalIn` context map the
literal's context class to a type name; any other literal class falls
through the `if`/`elif` chain and the function returns Python `None`
(embedded as `none`).  In any other context return `"unknown"`. -/
def get_literal_type (ctx : Tree) (context_type : Option String) : Option String :=
  if context_type = some "Comparison" ∨ context_type = some "LogicalIn" then
    if ctx.isKind .stringLiteral then some "keyword"
    else if ctx.isKind .integerLiteral || ctx.isKind .qualifiedIntegerLiteral then
      some "integer"
    else if ctx.isKind .decimalLiteral then some "decimal"
    else if ctx.isKind .booleanLiteral then some "boolean"
    else none
  else some "unknown"

/-- Check `check_literal_type`: find the associated field and context; when the
field is truthy (non-`None` and non-empty) and is a schema key, compare
the declared type with `get_literal_type` and raise `ValueError` on any
difference (Python `!=` compares a string with a possibly-`None` value). -/
def check_literal_type (schema : Schema) (ctx : Tree) (ancestors : List Tree) :
    Option PyError :=
  match find_associated_field_and_context ancestors with
  | .error _ => some .attributeError
  | .ok (field, context_type) =>
    match field with
    | none => none
    | some f =>
      if f = "" then none
      else
        match lookupField schema f with
        | none => none
        | some expected =>
          let actual := get_literal_type ctx context_type
          if some expected = actual then none
          else some (.typeMismatch f context_type expected actual)

/-- One walker `enterEveryRule` dispatch: the listener overrides exactly
`enterQualifiedName`, `enterSourceIdentifier` and the nine literal
handlers (all nine delegate to `check_literal_type`); every other node
kind is a no-op for the session state. -/
def enterNode (schema : Schema) (ctx : Tree) (ancestors : List Tree)
    (s : SessionState) : SessionState × Option PyError :=
  match ctx with
  | .leaf _ => (s, none)
  | .node k _ =>
    match k with
    | .qualifiedName => enterQualifiedName schema ctx ancestors s
    | .sourceIdentifier => enterSourceIdentifier schema ctx ancestors s
    | .nullLiteral => (s, check_literal_type schema ctx ancestors)
    | .qualifiedIntegerLiteral => (s, check_literal_type schema ctx ancestors)
    | .decimalLiteral => (s, check_literal_type schema ctx ancestors)
    | .integerLiteral => (s, check_literal_type schema ctx ancestors)
    | .booleanLiteral => (s, check_literal_type schema ctx ancestors)
    | .stringLiteral => (s, check_literal_type schema ctx ancestors)
    | .numericArrayLiteral => (s, check_literal_type schema ctx ancestors)
    | .booleanArrayLiteral => (s, check_literal_type schema ctx ancestors)
    | .stringArrayLiteral => (s, check_literal_type schema ctx ancestors)
    | _ => (s, none)

mutual

/-- Text of the leftmost leaf of a subtree, written after the design
wording "the leftmost leaf of the left-hand side"; used only to compare
the wording against what the code extracts. -/
def spec_leftmost_leaf_text : Tree → Option String
  | .leaf t => some t
  | .node _ cs => spec_leftmost_leaf_of_list cs

/-- Leftmost-leaf text of the first subtree of a list, if any. -/
def spec_leftmost_leaf_of_list : List Tree → Option String
  | [] => none
  | c :: _ => spec_leftmost_leaf_text c

end

/-! Concrete parse-tree fragments used as witnesses and counterexamples. -/

/-- A qualified-name node reading `b`. -/
def qnB : Tree := Tree.node .qualifiedName [Tree.leaf "b"]

/-- An unrecognized expression node wrapping `qnB`: `b` sits at depth two
below the eval clause. -/
def innerEvalExpr : Tree := Tree.node .other [qnB]

/-- An eval clause whose expression contains `b` at depth two. -/
def evalClause : Tree := Tree.node .evalCommand [innerEvalExpr]

/-- A qualified-name node reading `event.dataset`. -/
def qnDataset : Tree := Tree.node .qualifiedName [Tree.leaf "event.dataset"]

/-- Left operand of `datasetComparison`: an operator-expression wrapping
the `event.dataset` qualified name, as the generated grammar nests it. -/
def datasetLhs : Tree := Tree.node .operatorExpression [qnDataset]

/-- The comparison `event.dataset=="nginx"` with each operand wrapped in
an operator-expression node. -/
def datasetComparison : Tree :=
  Tree.node .comparison
    [datasetLhs, Tree.leaf "==",
     Tree.node .operatorExpression [Tree.leaf "\x22nginx\x22"]]

/-- A comparison `a+b>3` whose left operand's first child is the compound
sub-expression `a+b`, not a single leaf. -/
def compoundComparison : Tree :=
  Tree.node .comparison
    [Tree.node .operatorExpression
       [Tree.node .other [Tree.leaf "a", Tree.leaf "+", Tree.leaf "b"]],
     Tree.leaf ">", Tree.node .operatorExpression [Tree.leaf "3"]]

/-- Ancestor chain of a literal directly under a comparison whose left
operand's first child is a node with empty text. -/
def emptyFieldAncestors : List Tree :=
  [Tree.node .comparison
     [Tree.node .operatorExpression [Tree.node .other []], Tree.leaf "=="]]

/-- Ancestor chain of a literal directly under the comparison `f==` with
left operand first child the leaf `f`. -/
def fieldFAncestors : List Tree :=
  [Tree.node .comparison
     [Tree.node .operatorExpression [Tree.leaf "f"], Tree.leaf "=="]]

/-- Ancestor chain of a literal directly under the comparison `c==` with
left operand first child the leaf `c`. -/
def fieldCAncestors : List Tree :=
  [Tree.node .comparison
     [Tree.node .operatorExpression [Tree.leaf "c"], Tree.leaf "=="]]

/-- Handler `enterQualifiedName` never removes or edits entries: each collection
of the incoming state is a prefix of the corresponding outgoing one. -/
lemma enterQualifiedName_append_only (schema : Schema) (ctx : Tree)
    (anc : List Tree) (s : SessionState) :
    List.IsPrefix s.field_list (enterQualifiedName schema ctx anc s).1.field_list ∧
    List.IsPrefix s.indices (enterQualifiedName schema ctx anc s).1.indices ∧
    List.IsPrefix s.get_event_datasets
      (enterQualifiedName schema ctx anc s).1.get_event_datasets := by
  unfold enterQualifiedName
  dsimp only
  split
  · exact ⟨List.prefix_refl _, List.prefix_refl _, List.prefix_refl _⟩
  · split
    · exact ⟨List.prefix_append _ _, List.prefix_refl _, List.prefix_refl _⟩
    · split
      · split
        · exact ⟨List.prefix_append _ _, List.prefix_refl _, List.prefix_append _ _⟩
        · exact ⟨List.prefix_append _ _, List.prefix_refl _, List.prefix_refl _⟩
      · exact ⟨List.prefix_append _ _, List.prefix_refl _, List.prefix_refl _⟩

/-- Handler `enterSourceIdentifier` never removes or edits entries. -/
lemma enterSourceIdentifier_append_only (schema : Schema) (ctx : Tree)
    (anc : List Tree) (s : SessionState) :
    List.IsPrefix s.field_list (enterSourceIdentifier schema ctx anc s).1.field_list ∧
    List.IsPrefix s.indices (enterSourceIdentifier schema ctx anc s).1.indices ∧
    List.IsPrefix s.get_event_datasets
      (enterSourceIdentifier schema ctx anc s).1.get_event_datasets := by
  unfold enterSourceIdentifier
  dsimp only
  split
  · split
    · exact ⟨List.prefix_append _ _, List.prefix_refl _, List.prefix_refl _⟩
    · exact ⟨List.prefix_append _ _, List.prefix_refl _, List.prefix_refl _⟩
  · exact ⟨List.prefix_refl _, List.prefix_append _ _, List.prefix_refl _⟩

/-- A `logicalIn` node is not a `comparison` node. -/
lemma isKind_comparison_of_logicalIn {p : Tree}
    (hp : p.isKind .logicalIn = true) : p.isKind .comparison = false := by
  cases p with
  | leaf t => simp [Tree.isKind] at hp
  | node k cs =>
    simp [Tree.isKind] at hp ⊢
    subst hp
    decide

/-- C1, counterexample: at a comparison whose left operand's first child
has empty text, the empty string is the extracted field operand and is a
schema key with declared type `keyword`, the integer literal's kind maps
to `integer`, `keyword` differs from `integer`, yet the check raises
nothing — Python's `if field and field in self.schema` treats the empty
field text as falsy, so the claimed mismatch error is not raised. -/
theorem C1_counterexample :
    find_associated_field_and_context emptyFieldAncestors
      = .ok (some "", some "Comparison") ∧
    lookupField [("", "keyword")] "" = some "keyword" ∧
    get_literal_type (Tree.node .integerLiteral [Tree.leaf "1"]) (some "Comparison")
      = some "integer" ∧
    ("keyword" : String) ≠ "integer" ∧
    check_literal_type [("", "keyword")] (Tree.node .integerLiteral [Tree.leaf "1"])
      emptyFieldAncestors = none :=
  ⟨rfl, rfl, rfl, by decide, rfl⟩

/-- C1, amended: for a literal whose nearest comparison/in-list context
yields a *non-empty* field operand `f` that is a schema key with declared
type `T`, and whose kind maps to inferred type `U`, the check succeeds
iff `T = U` and otherwise raises the `ValueError` carrying the field, the
context kind, the expected type `T` and the actual type `U`. -/
theorem C1_mapped_literal_check_iff (schema : Schema) (ctx : Tree)
    (anc : List Tree) (f ck T U : String)
    (hfind : find_associated_field_and_context anc = .ok (some f, some ck))
    (hne : f ≠ "")
    (hT : lookupField schema f = some T)
    (_hck : ck = "Comparison" ∨ ck = "LogicalIn")
    (hU : get_literal_type ctx (some ck) = some U) :
    (check_literal_type schema ctx anc = none ↔ T = U) ∧
    (T ≠ U → check_literal_type schema ctx anc
        = some (.typeMismatch f (some ck) T (some U))) := by
  constructor
  · constructor
    · intro h
      by_contra hTU
      simp [check_literal_type, hfind, hne, hT, hU, hTU] at h
    · intro hTU
      subst hTU
      simp [check_literal_type, hfind, hne, hT, hU]
  · intro hTU
    simp [check_literal_type, hfind, hne, hT, hU, hTU]

/-- C1, witness: integer literal compared to the integer field `c`. -/
theorem C1_mapped_literal_check_iff_witness :
    find_associated_field_and_context fieldCAncestors
      = .ok (some "c", some "Comparison") ∧
    ("c" : String) ≠ "" ∧
    lookupField [("c", "integer")] "c" = some "integer" ∧
    get_literal_type (Tree.node .integerLiteral [Tree.leaf "1"]) (some "Comparison")
      = some "integer" ∧
    ((check_literal_type [("c", "integer")]
        (Tree.node .integerLiteral [Tree.leaf "1"]) fieldCAncestors = none
      ↔ ("integer" : String) = "integer") ∧
     (("integer" : String) ≠ "integer" →
      check_literal_type [("c", "integer")]
        (Tree.node .integerLiteral [Tree.leaf "1"]) fieldCAncestors
        = some (.typeMismatch "c" (some "Comparison") "integer" (some "integer")))) :=
  ⟨rfl, by decide, rfl, rfl,
   C1_mapped_literal_check_iff [("c", "integer")]
     (Tree.node .integerLiteral [Tree.leaf "1"]) fieldCAncestors
     "c" "Comparison" "integer" "integer" rfl (by decide) rfl (Or.inl rfl) rfl⟩

/-- C2, counterexample: a null literal (a kind with no type mapping)
directly under the comparison `f==`, with `f` a schema key: the check
does not skip — `get_literal_type` returns Python `None`, the string
`keyword` differs from `None`, and the `ValueError` is raised with actual
type `None`. -/
theorem C2_counterexample :
    find_associated_field_and_context fieldFAncestors
      = .ok (some "f", some "Comparison") ∧
    lookupField [("f", "keyword")] "f" = some "keyword" ∧
    get_literal_type (Tree.node .nullLiteral []) (some "Comparison") = none ∧
    check_literal_type [("f", "keyword")] (Tree.node .nullLiteral []) fieldFAncestors
      = some (.typeMismatch "f" (some "Comparison") "keyword" none) :=
  ⟨rfl, rfl, rfl, rfl⟩

/-- C2, amended: for a literal of a kind with no type mapping, in a
recognized context whose non-empty field operand is a schema key with
declared type `T`, the check raises the type-mismatch `ValueError`
reporting actual type `None` (the declared type, a string, never equals
the missing inferred type). -/
theorem C2_unmapped_literal_raises (schema : Schema) (ctx : Tree)
    (anc : List Tree) (f ck T : String)
    (hfind : find_associated_field_and_context anc = .ok (some f, some ck))
    (hne : f ≠ "")
    (hT : lookupField schema f = some T)
    (hlit : get_literal_type ctx (some ck) = none) :
    check_literal_type schema ctx anc
      = some (.typeMismatch f (some ck) T none) := by
  simp [check_literal_type, hfind, hne, hT, hlit]

/-- C2, witness: boolean array literal under the comparison `f==`. -/
theorem C2_unmapped_literal_raises_witness :
    find_associated_field_and_context fieldFAncestors
      = .ok (some "f", some "Comparison") ∧
    ("f" : String) ≠ "" ∧
    lookupField [("f", "keyword")] "f" = some "keyword" ∧
    get_literal_type (Tree.node .booleanArrayLiteral []) (some "Comparison") = none ∧
    check_literal_type [("f", "keyword")] (Tree.node .booleanArrayLiteral [])
      fieldFAncestors = some (.typeMismatch "f" (some "Comparison") "keyword" none) :=
  ⟨rfl, by decide, rfl, rfl,
   C2_unmapped_literal_raises [("f", "keyword")] (Tree.node .booleanArrayLiteral [])
     fieldFAncestors "f" "Comparison" "keyword" rfl (by decide) rfl rfl⟩

/-- C3, counterexample: the qualified name `b` sits at depth two inside
an eval clause (its parent is another expression node, its grandparent
the eval clause), yet with an empty schema the handler appends `b` to
`field_list` and raises the unknown-field `ESQLSyntaxError` — the
exemption tests only the immediate parent. -/
theorem C3_counterexample :
    evalClause = Tree.node .evalCommand [innerEvalExpr] ∧
    innerEvalExpr = Tree.node .other [qnB] ∧
    enterQualifiedName [] qnB [innerEvalExpr, evalClause] initState
      = ({ initState with field_list := ["b"] },
         some (.esqlSyntaxInvalidField "b")) :=
  ⟨rfl, rfl, rfl⟩

/-- C3, amended: a qualified-name node whose *immediate parent* is the
eval clause is neither appended to `field_list` nor checked against the
schema; the handler returns the state unchanged with no error. -/
theorem C3_immediate_parent_eval_exempt (schema : Schema) (ctx : Tree)
    (p : Tree) (rest : List Tree) (s : SessionState)
    (hp : p.isKind .evalCommand = true) :
    enterQualifiedName schema ctx (p :: rest) s = (s, none) := by
  simp [enterQualifiedName, hp]

/-- C3, witness: `b` directly under an eval clause, empty schema. -/
theorem C3_immediate_parent_eval_exempt_witness :
    (Tree.node .evalCommand [qnB]).isKind .evalCommand = true ∧
    enterQualifiedName [] qnB [Tree.node .evalCommand [qnB]] initState
      = (initState, none) :=
  ⟨rfl, C3_immediate_parent_eval_exempt [] qnB (Tree.node .evalCommand [qnB])
     [] initState rfl⟩

/-- C4: a source identifier whose immediate parent is a from clause is
appended to `indices` and never checked against the schema — the result
holds for every schema, no error is ever returned, and the other
collections are untouched. -/
theorem C4_from_parent_appends_index (schema : Schema) (ctx : Tree)
    (p : Tree) (rest : List Tree) (s : SessionState)
    (hp : p.isKind .fromCommand = true) :
    enterSourceIdentifier schema ctx (p :: rest) s
      = ({ s with indices := s.indices ++ [ctx.getText] }, none) := by
  simp [enterSourceIdentifier, hp]

/-- C4, witness: `logs-*` under a from clause with an empty schema (the
identifier is not a schema key and still no error is raised). -/
theorem C4_from_parent_appends_index_witness :
    (Tree.node .fromCommand []).isKind .fromCommand = true ∧
    lookupField [] "logs-*" = none ∧
    enterSourceIdentifier [] (Tree.node .sourceIdentifier [Tree.leaf "logs-*"])
      [Tree.node .fromCommand []] initState
      = ({ initState with indices := ["logs-*"] }, none) :=
  ⟨rfl, rfl,
   C4_from_parent_appends_index [] (Tree.node .sourceIdentifier [Tree.leaf "logs-*"])
     (Tree.node .fromCommand []) [] initState rfl⟩

/-- C5, counterexample: in the comparison `event.dataset=="nginx"` the
qualified name is wrapped in an operator-expression node, as the code's
own field extraction (`operatorExpression(0).getChild(0)`) expects; the
handler then appends its *parent's* text `event.dataset`, not the
comparison's full text `event.dataset=="nginx"`, to the
dataset-comparison collection. -/
theorem C5_counterexample :
    datasetComparison
      = Tree.node .comparison
          [datasetLhs, Tree.leaf "==",
           Tree.node .operatorExpression [Tree.leaf "\x22nginx\x22"]] ∧
    datasetLhs = Tree.node .operatorExpression [qnDataset] ∧
    find_associated_field_and_context [datasetComparison]
      = .ok (some "event.dataset", some "Comparison") ∧
    Tree.getText datasetComparison = "event.dataset==\x22nginx\x22" ∧
    enterQualifiedName [("event.dataset", "keyword")] qnDataset
      [datasetLhs, datasetComparison] initState
      = ({ initState with
             field_list := ["event.dataset"],
             get_event_datasets := ["event.dataset"] }, none) ∧
    ¬ ("event.dataset==\x22nginx\x22" ∈ (["event.dataset"] : List String)) :=
  ⟨rfl, rfl, rfl, rfl, rfl, by decide⟩

/-- C5, amended: for every qualified-name node reading `event.dataset`
whose immediate parent is not an eval clause, provided `event.dataset` is
a schema key, the handler appends the *immediate parent's* full text to
`get_event_datasets` (at the end, so entries follow traversal order);
that text equals the comparison's full text only when the qualified name
is a direct child of the comparison node. -/
theorem C5_dataset_appends_parent_text (schema : Schema) (ctx : Tree)
    (p : Tree) (rest : List Tree) (s : SessionState) (T : String)
    (hp : p.isKind .evalCommand = false)
    (hx : ctx.getText = "event.dataset")
    (hT : lookupField schema "event.dataset" = some T) :
    enterQualifiedName schema ctx (p :: rest) s
      = ({ s with
             field_list := s.field_list ++ ["event.dataset"],
             get_event_datasets := s.get_event_datasets ++ [p.getText] }, none) := by
  simp [enterQualifiedName, hp, hx, hT]

/-- C5, witness: the nested `event.dataset=="nginx"` comparison. -/
theorem C5_dataset_appends_parent_text_witness :
    datasetLhs.isKind .evalCommand = false ∧
    Tree.getText qnDataset = "event.dataset" ∧
    lookupField [("event.dataset", "keyword")] "event.dataset" = some "keyword" ∧
    enterQualifiedName [("event.dataset", "keyword")] qnDataset
      [datasetLhs, datasetComparison] initState
      = ({ initState with
             field_list := ["event.dataset"],
             get_event_datasets := [Tree.getText datasetLhs] }, none) :=
  ⟨rfl, rfl, rfl,
   C5_dataset_appends_parent_text [("event.dataset", "keyword")] qnDataset
     datasetLhs [datasetComparison] initState "keyword" rfl rfl rfl⟩

/-- C6, counterexample: for a literal directly under the comparison
`a+b>3` whose left operand's first child is the compound expression
`a+b`, the search returns the text `a+b` of that whole first child, not
the text `a` of the leftmost leaf of the first operand. -/
theorem C6_counterexample :
    find_associated_field_and_context [compoundComparison]
      = .ok (some "a+b", some "Comparison") ∧
    (operatorExpression0 compoundComparison).bind spec_leftmost_leaf_text
      = some "a" ∧
    ("a+b" : String) ≠ "a" :=
  ⟨rfl, rfl, by decide⟩

/-- C6, amended: the ancestor search starts at the node's parent and
stops at the first comparison or in-list ancestor, returning the full
text of the *first child* of that construct's first operand
sub-expression (Python `None` when the operand has no child) together
with the context kind, never continuing past that ancestor whatever lies
above it; if no comparison/in-list ancestor exists up to the root it
returns `(None, None)`. -/
theorem C6_nearest_context_first_child :
    (∀ (p : Tree) (rest : List Tree) (oe : Tree),
       p.isKind .comparison = true → operatorExpression0 p = some oe →
       find_associated_field_and_context (p :: rest)
         = .ok ((childrenOf oe).head?.map Tree.getText, some "Comparison")) ∧
    (∀ (p : Tree) (rest : List Tree) (ve : Tree),
       p.isKind .logicalIn = true → valueExpression0 p = some ve →
       find_associated_field_and_context (p :: rest)
         = .ok ((childrenOf ve).head?.map Tree.getText, some "LogicalIn")) ∧
    (∀ anc : List Tree,
       (∀ a ∈ anc, a.isKind .comparison = false ∧ a.isKind .logicalIn = false) →
       find_associated_field_and_context anc = .ok (none, none)) := by
  refine ⟨?_, ?_, ?_⟩
  · intro p rest oe hp hoe
    simp [find_associated_field_and_context, hp, hoe]
  · intro p rest ve hp hve
    have hc := isKind_comparison_of_logicalIn hp
    simp [find_associated_field_and_context, hc, hp, hve]
  · intro anc h
    induction anc with
    | nil => rfl
    | cons a rest ih =>
      have ha := h a (by simp)
      have hrest : ∀ b ∈ rest, b.isKind .comparison = false ∧
          b.isKind .logicalIn = false := fun b hb => h b (by simp [hb])
      simp [find_associated_field_and_context, ha.1, ha.2, ih hrest]

/-- C6, witness: the search applied below `a+b>3` with a further in-list
construct above it stops at the comparison and ignores the outer
ancestor. -/
theorem C6_nearest_context_first_child_witness :
    find_associated_field_and_context
      [compoundComparison, Tree.node .logicalIn []]
      = .ok (some "a+b", some "Comparison") :=
  C6_nearest_context_first_child.1 compoundComparison
    [Tree.node .logicalIn []]
    (Tree.node .operatorExpression
      [Tree.node .other [Tree.leaf "a", Tree.leaf "+", Tree.leaf "b"]])
    rfl rfl

/-- C7: when the ancestor search yields no field, or a field that is not
a schema key, `check_literal_type` returns without error. -/
theorem C7_unconstrained_literal_not_checked (schema : Schema) (ctx : Tree)
    (anc : List Tree) (fo ck : Option String)
    (hfind : find_associated_field_and_context anc = .ok (fo, ck))
    (h : fo = none ∨ ∃ f, fo = some f ∧ lookupField schema f = none) :
    check_literal_type schema ctx anc = none := by
  rcases h with h | ⟨f, hf, hl⟩
  · subst h
    simp [check_literal_type, hfind]
  · subst hf
    by_cases he : f = ""
    · subst he
      simp [check_literal_type, hfind]
    · simp [check_literal_type, hfind, he, hl]

/-- C7, witness: an integer literal with no recognized ancestor at all,
and a string literal under a comparison on a field absent from the
schema. -/
theorem C7_unconstrained_literal_not_checked_witness :
    (find_associated_field_and_context [] = .ok (none, none) ∧
     check_literal_type [("c", "integer")]
       (Tree.node .integerLiteral [Tree.leaf "1"]) [] = none) ∧
    (find_associated_field_and_context fieldFAncestors
       = .ok (some "f", some "Comparison") ∧
     lookupField [("c", "integer")] "f" = none ∧
     check_literal_type [("c", "integer")]
       (Tree.node .stringLiteral [Tree.leaf "\x22x\x22"]) fieldFAncestors = none) :=
  ⟨⟨rfl, C7_unconstrained_literal_not_checked [("c", "integer")]
      (Tree.node .integerLiteral [Tree.leaf "1"]) [] none none rfl (Or.inl rfl)⟩,
   ⟨rfl, rfl, C7_unconstrained_literal_not_checked [("c", "integer")]
      (Tree.node .stringLiteral [Tree.leaf "\x22x\x22"]) fieldFAncestors
      (some "f") (some "Comparison") rfl (Or.inr ⟨"f", rfl, rfl⟩)⟩⟩

/-- C8: a source identifier whose immediate parent is not a from clause
is appended to `field_list`, raises the unknown-field `ValueError`
exactly when its text is not a schema key, and leaves `indices` and
`get_event_datasets` untouched — in particular nothing is ever added to
the dataset-comparison collection, even for the text `event.dataset`. -/
theorem C8_non_from_source_identifier_field_path (schema : Schema)
    (ctx : Tree) (anc : List Tree) (s : SessionState)
    (hp : anc.head?.any (fun p => p.isKind .fromCommand) = false) :
    enterSourceIdentifier schema ctx anc s
      = ({ s with field_list := s.field_list ++ [ctx.getText] },
         if (lookupField schema ctx.getText).isNone then
           some (.valueInvalidField ctx.getText)
         else none) := by
  by_cases hl : (lookupField schema ctx.getText).isNone = true
  · simp [enterSourceIdentifier, hp, hl]
  · simp [enterSourceIdentifier, hp, hl]

/-- C8, witness: `event.dataset` as a source identifier under a where
clause with an empty schema: it goes to `field_list`, raises the
unknown-field `ValueError`, and `get_event_datasets` stays empty. -/
theorem C8_non_from_source_identifier_field_path_witness :
    ([Tree.node .whereCommand []].head?.any
       (fun p => p.isKind .fromCommand) = false) ∧
    lookupField [] "event.dataset" = none ∧
    enterSourceIdentifier [] (Tree.node .sourceIdentifier [Tree.leaf "event.dataset"])
      [Tree.node .whereCommand []] initState
      = ({ initState with field_list := ["event.dataset"] },
         some (.valueInvalidField "event.dataset")) :=
  ⟨rfl, rfl,
   C8_non_from_source_identifier_field_path []
     (Tree.node .sourceIdentifier [Tree.leaf "event.dataset"])
     [Tree.node .whereCommand []] initState rfl⟩

/-- C9: every handler the listener registers (dispatched through
`enterNode`) only appends to the three session collections: the incoming
`field_list`, `indices` and `get_event_datasets` are each a prefix of the
outgoing ones, for every node, ancestor chain, schema and state — no
entry is removed, mutated or reordered. -/
theorem C9_handlers_append_only (schema : Schema) (ctx : Tree)
    (anc : List Tree) (s : SessionState) :
    List.IsPrefix s.field_list (enterNode schema ctx anc s).1.field_list ∧
    List.IsPrefix s.indices (enterNode schema ctx anc s).1.indices ∧
    List.IsPrefix s.get_event_datasets
      (enterNode schema ctx anc s).1.get_event_datasets := by
  cases ctx with
  | leaf t =>
    exact ⟨List.prefix_refl _, List.prefix_refl _, List.prefix_refl _⟩
  | node k cs =>
    cases k
    case qualifiedName => exact enterQualifiedName_append_only _ _ _ _
    case sourceIdentifier => exact enterSourceIdentifier_append_only _ _ _ _
    all_goals
      exact ⟨List.prefix_refl _, List.prefix_refl _, List.prefix_refl _⟩

/-- C10: for a qualified name whose immediate parent is not an eval
clause and whose text is not a schema key, the handler's unknown-field
error is reported on a state whose `field_list` already ends with the
offending field: the append happens before the raise. -/
theorem C10_append_precedes_unknown_field_error (schema : Schema)
    (ctx : Tree) (anc : List Tree) (s : SessionState)
    (hp : anc.head?.any (fun p => p.isKind .evalCommand) = false)
    (hl : lookupField schema ctx.getText = none) :
    enterQualifiedName schema ctx anc s
      = ({ s with field_list := s.field_list ++ [ctx.getText] },
         some (.esqlSyntaxInvalidField ctx.getText)) := by
  simp [enterQualifiedName, hp, hl]

/-- C10, witness: unknown field `b` under a where clause. -/
theorem C10_append_precedes_unknown_field_error_witness :
    ([Tree.node .whereCommand []].head?.any
       (fun p => p.isKind .evalCommand) = false) ∧
    lookupField [] "b" = none ∧
    enterQualifiedName [] qnB [Tree.node .whereCommand []] initState
      = ({ initState with field_list := ["b"] },
         some (.esqlSyntaxInvalidField "b")) :=
  ⟨rfl, rfl,
   C10_append_precedes_unknown_field_error [] qnB
     [Tree.node .whereCommand []] initState rfl rfl⟩

end Esql
